import Mathlib

/-!
Shallow embedding of the low-level PDF byte parser of the ts-pdf repository
(`SyncDataParser` and `ResourceDict`), together with proofs of the spec's
testable properties about it.

Conventions of the embedding:
* The parser's `Uint8Array` data is a `List Nat` of byte values; an index is an
  `Int` (the source uses JS numbers and lets indices run negative or past the
  end).  Reading a byte returns `Option Nat`; `none` models the JS `undefined`
  produced by an out-of-bounds read.
* JS `for`/`while` loops are modelled by structurally recursive helpers driven
  by an explicit iteration count that matches the number of iterations the JS
  loop performs; loops of the source that can run forever (the dictionary and
  array bound scanners) take a fuel argument, and exhausting the fuel after the
  scan has left the buffer models the source's non-termination.
* The character-code constants come from the repository's `char-codes` module
  (standard ASCII byte values, restated in the PDF 1.7 character-class tables
  of the spec).
-/

namespace TsPdf

/-- whitespace byte per the source's `spaceChars` set:
NUL, TAB, LF, FF, CR, SPACE -/
def isSpaceCharB (c : Nat) : Bool :=
  c == 0 || c == 9 || c == 10 || c == 12 || c == 13 || c == 32

/-- delimiter byte per the source's `delimiterChars` set:
percent, parentheses, slash, less, greater, brackets, braces -/
def isDelimiterB (c : Nat) : Bool :=
  c == 37 || c == 40 || c == 41 || c == 47 || c == 60 || c == 62 ||
  c == 91 || c == 93 || c == 123 || c == 125

/-- digit byte per the source's `digitChars` set -/
def isDigitB (c : Nat) : Bool :=
  c == 48 || c == 49 || c == 50 || c == 51 || c == 52 ||
  c == 53 || c == 54 || c == 55 || c == 56 || c == 57

/-- newline byte per the source's `newLineChars` set: CR, LF -/
def isNewLineB (c : Nat) : Bool :=
  c == 13 || c == 10

/-- a regular byte: neither a delimiter nor whitespace -/
def isRegularB (c : Nat) : Bool :=
  !(isDelimiterB c) && !(isSpaceCharB c)

/-- `SyncDataParser.isRegularChar` on a possibly-undefined byte:
`isNaN(code)` (an out-of-bounds read) yields `false`; otherwise the byte is
regular iff it is neither a delimiter nor whitespace. -/
def isRegularO : Option Nat → Bool
  | none => false
  | some c => isRegularB c

/-- `SyncDataParser.isNotSpaceChar` on a possibly-undefined byte: the JS set
lookup `spaceChars.has(undefined)` is `false`, so an undefined byte counts as
not-a-space. -/
def isNotSpaceO : Option Nat → Bool
  | none => true
  | some c => !(isSpaceCharB c)

/-- `SyncDataParser.isDelimiterChar` on a possibly-undefined byte -/
def isDelimiterO : Option Nat → Bool
  | none => false
  | some c => isDelimiterB c

/-- `SyncDataParser.isDigit` on a possibly-undefined byte -/
def isDigitO : Option Nat → Bool
  | none => false
  | some c => isDigitB c

/-- `SyncDataParser.isNewLineChar` on a possibly-undefined byte -/
def isNewLineO : Option Nat → Bool
  | none => false
  | some c => isNewLineB c

/-- read `this._data[i]`: `none` models the `undefined` of an out-of-bounds
JS typed-array read -/
def getC (data : List Nat) (i : Int) : Option Nat :=
  if 0 ≤ i then data.get? i.toNat else none

/-- `this._maxIndex = data.length - 1` -/
def maxIndex (data : List Nat) : Int :=
  (data.length : Int) - 1

/-- `SyncDataParser.isOutside`: `index < 0 || index > this._maxIndex` -/
def isOutside (data : List Nat) (i : Int) : Bool :=
  decide (i < 0) || decide (maxIndex data < i)

/-- forward scan `for (i; i <= maxIndex; i++) if (p(arr[i])) return i`,
driven by the number of remaining loop iterations; `-1` when the loop runs
out without a hit -/
def scanF (p : Option Nat → Bool) (data : List Nat) : Nat → Int → Int
  | 0, _ => -1
  | n + 1, i => if p (getC data i) then i else scanF p data n (i + 1)

/-- backward scan `for (i; i >= 0; i--) if (p(arr[i])) return i` -/
def scanB (p : Option Nat → Bool) (data : List Nat) : Nat → Int → Int
  | 0, _ => -1
  | n + 1, i => if p (getC data i) then i else scanB p data n (i - 1)

/-- `SyncDataParser.findNonSpaceIndex` (the `start` argument is always given
explicitly by the callers modelled here) -/
def findNonSpaceIndex (data : List Nat) (direction : Bool) (start : Int) : Int :=
  if direction then scanF isNotSpaceO data (maxIndex data + 1 - start).toNat start
  else scanB isNotSpaceO data (start + 1).toNat start

/-- `SyncDataParser.findDelimiterIndex` -/
def findDelimiterIndex (data : List Nat) (direction : Bool) (start : Int) : Int :=
  if direction then scanF isDelimiterO data (maxIndex data + 1 - start).toNat start
  else scanB isDelimiterO data (start + 1).toNat start

/-- `SyncDataParser.findCharIndex` -/
def findCharIndex (data : List Nat) (charCode : Nat) (direction : Bool) (start : Int) : Int :=
  if direction then
    scanF (fun o => o == some charCode) data (maxIndex data + 1 - start).toNat start
  else
    scanB (fun o => o == some charCode) data (start + 1).toNat start

/-- `SyncDataParser.findNewLineIndex`: locate the next line break and step
just past it (forward) or just before it (backward), merging a CRLF pair -/
def findNewLineIndex (data : List Nat) (direction : Bool) (start : Int) : Int :=
  if direction then
    let lineBreakIndex := scanF isNewLineO data (maxIndex data + 1 - start).toNat start
    if lineBreakIndex == -1 then -1
    else
      let adjusted :=
        if getC data lineBreakIndex == some 13 && getC data (lineBreakIndex + 1) == some 10
        then lineBreakIndex + 1 else lineBreakIndex
      min (adjusted + 1) (maxIndex data)
  else
    let lineBreakIndex := scanB isNewLineO data (start + 1).toNat start
    if lineBreakIndex == -1 then -1
    else
      let adjusted :=
        if getC data lineBreakIndex == some 10 && getC data (lineBreakIndex - 1) == some 13
        then lineBreakIndex - 1 else lineBreakIndex
      max (adjusted - 1) 0

/-- `SyncDataParser.skipEmpty`: advance past whitespace; if the byte found is
`%`, additionally advance past the next newline and past whitespace once more
(NOTE: the source does not re-check for a second comment). -/
def skipEmpty (data : List Nat) (start : Int) : Int :=
  let index := findNonSpaceIndex data true start
  if index == -1 then -1
  else if getC data index == some 37 then
    let afterComment := findNewLineIndex data true (index + 1)
    if afterComment == -1 then -1
    else findNonSpaceIndex data true afterComment
  else index

/-- `ParserBounds` of the source: inclusive start/end byte indices, with the
optional content range of composite values.  (The source field `end` is a Lean
keyword and is rendered `endIdx`.) -/
structure ParserBounds where
  start : Int
  endIdx : Int
  contentStart : Option Int := none
  contentEnd : Option Int := none
deriving DecidableEq

/-- `ParserResult<T>` of the source -/
structure ParserResult (α : Type) where
  value : α
  start : Int
  endIdx : Int
deriving DecidableEq

/-- `ParserOptions` of the source (`direction` defaults to forward,
`closedOnly` to false; absent min/max indices are `none`) -/
structure ParserOptions where
  direction : Bool := true
  minIndex : Option Int := none
  maxIndex : Option Int := none
  closedOnly : Bool := false
deriving DecidableEq

/-- the inner `for (j...)` comparison loop of `findSubarrayIndex` in the
forward direction: all of `arr[i + j] === sub[j]` -/
def matchF (data : List Nat) : List Nat → Int → Bool
  | [], _ => true
  | c :: rest, i => (getC data i == some c) && matchF data rest (i + 1)

/-- the inner comparison loop of `findSubarrayIndex` in the backward
direction: all of `arr[i - j] === sub[subMaxIndex - j]`, i.e. the needle is
matched from its last byte downward -/
def matchB (data : List Nat) : List Nat → Int → Bool
  | [], _ => true
  | c :: rest, i => (getC data i == some c) && matchB data rest (i - 1)

/-- the forward outer loop of `findSubarrayIndex`: at each position try the
match; on a hit return the bounds when `allowOpened` or the byte just past the
match is not regular, else keep scanning -/
def fsiF (data sub : List Nat) (allowOpened : Bool) : Nat → Int → Option ParserBounds
  | 0, _ => none
  | n + 1, i =>
    if matchF data sub i && (allowOpened || !(isRegularO (getC data (i + (sub.length : Int))))) then
      some ⟨i, i + (sub.length : Int) - 1, none, none⟩
    else fsiF data sub allowOpened n (i + 1)

/-- the backward outer loop of `findSubarrayIndex`; the byte checked by the
closed-match test is the one just before the match -/
def fsiB (data sub : List Nat) (allowOpened : Bool) : Nat → Int → Option ParserBounds
  | 0, _ => none
  | n + 1, i =>
    if matchB data sub.reverse i && (allowOpened || !(isRegularO (getC data (i - (sub.length : Int))))) then
      some ⟨i - (sub.length : Int) + 1, i, none, none⟩
    else fsiB data sub allowOpened n (i - 1)

/-- `SyncDataParser.findSubarrayIndex`: search for a literal byte sequence
between the clipped min/max indices, forward or backward; with `closedOnly`
a hit also needs a non-regular byte just past the match in the scan
direction -/
def findSubarrayIndex (data sub : List Nat) (options : ParserOptions) : Option ParserBounds :=
  if sub.isEmpty then none
  else
    let mi := max (min (options.minIndex.getD 0) (maxIndex data)) 0
    let ma := max (min (options.maxIndex.getD (maxIndex data)) (maxIndex data)) 0
    let allowOpened := !options.closedOnly
    if options.direction then fsiF data sub allowOpened (ma + 1 - mi).toNat mi
    else fsiB data sub allowOpened (ma + 1 - mi).toNat ma

/-- `ValueType` of the source's `spec-constants` module (the constant names;
the JS values are numeric tags).  The source function `getValueTypeAt` can
also return the JS `null`, modelled as `Option.none` at its call sites. -/
inductive ValueType where
  | UNKNOWN
  | NULL
  | BOOLEAN
  | NUMBER
  | STRING_LITERAL
  | STRING_HEX
  | NAME
  | ARRAY
  | DICTIONARY
  | STREAM
  | REF
  | COMMENT
deriving DecidableEq

/-- `SyncDataParser.getValueTypeAt`: classify the value starting at the
(optionally whitespace/comment-skipped) position; `none` is the JS `null`
returned when the position is outside the buffer -/
def getValueTypeAt (data : List Nat) (start0 : Int) (skipE : Bool) : Option ValueType :=
  let start := if skipE then skipEmpty data start0 else start0
  if isOutside data start then none
  else
    let i := start
    match getC data i with
    | none => none
    | some c =>
      if c == 47 then -- slash
        if isRegularO (getC data (i + 1)) then some ValueType.NAME else some ValueType.UNKNOWN
      else if c == 91 then some ValueType.ARRAY -- left bracket
      else if c == 40 then some ValueType.STRING_LITERAL -- left parenthesis
      else if c == 60 then -- less
        if getC data (i + 1) == some 60 then some ValueType.DICTIONARY
        else some ValueType.STRING_HEX
      else if c == 37 then some ValueType.COMMENT -- percent
      else if isDigitB c then
        let nextDelimIndex := findDelimiterIndex data true (i + 1)
        if nextDelimIndex != -1 then
          let refEndIndex := findCharIndex data 82 false (nextDelimIndex - 1)
          if refEndIndex != -1 && decide (i < refEndIndex) &&
              !(isRegularO (getC data (refEndIndex + 1))) then
            some ValueType.REF
          else some ValueType.NUMBER
        else some ValueType.NUMBER
      else if c == 46 || c == 45 then -- dot, minus
        if isDigitO (getC data (i + 1)) then some ValueType.NUMBER else some ValueType.UNKNOWN
      else if c == 115 then -- "stream"
        if getC data (i + 1) == some 116 && getC data (i + 2) == some 114 &&
            getC data (i + 3) == some 101 && getC data (i + 4) == some 97 &&
            getC data (i + 5) == some 109 then
          some ValueType.STREAM
        else some ValueType.UNKNOWN
      else if c == 116 then -- "true"
        if getC data (i + 1) == some 114 && getC data (i + 2) == some 117 &&
            getC data (i + 3) == some 101 then
          some ValueType.BOOLEAN
        else some ValueType.UNKNOWN
      else if c == 102 then -- "false"
        if getC data (i + 1) == some 97 && getC data (i + 2) == some 108 &&
            getC data (i + 3) == some 115 && getC data (i + 4) == some 101 then
          some ValueType.BOOLEAN
        else some ValueType.UNKNOWN
      else some ValueType.UNKNOWN

/-- the `while (dictOpened)` loop of `getDictBoundsAt`.  The loop state is
the open-dictionary count, the non-overlap latch `dictBound`, the string
literal nesting depth, the previously read byte (`undefined` before the first
iteration), and the read position.  `some i` is the value of `i` when the loop
exits; `none` means the fuel ran out, which (with fuel larger than the number
of in-buffer steps) models the source loop running forever past the end of the
buffer. -/
def dictScan (data : List Nat) :
    Nat → Nat → Bool → Nat → Option Nat → Int → Option Int
  | 0, _, _, _, _, _ => none
  | fuel + 1, dictOpened, dictBound, literalOpened, code, i =>
    if dictOpened == 0 then some i
    else
      let prevCode := code
      let c := getC data i
      let lit1 :=
        if c == some 40 && (literalOpened == 0 || !(prevCode == some 92)) then
          literalOpened + 1
        else literalOpened
      let lit2 :=
        if c == some 41 && (!(lit1 == 0) && !(prevCode == some 92)) then
          lit1 - 1
        else lit1
      if !(lit2 == 0) then
        dictScan data fuel dictOpened dictBound lit2 c (i + 1)
      else if !dictBound then
        if c == some 60 && prevCode == some 60 then
          dictScan data fuel (dictOpened + 1) true lit2 c (i + 1)
        else if c == some 62 && prevCode == some 62 then
          dictScan data fuel (dictOpened - 1) true lit2 c (i + 1)
        else
          dictScan data fuel dictOpened false lit2 c (i + 1)
      else
        dictScan data fuel dictOpened false lit2 c (i + 1)

/-- `SyncDataParser.getDictBoundsAt`: the start must hold `<<`; scan forward
with the literal-aware non-overlapping `<<`/`>>` counter; `none` covers both
the source's `null` returns and (via fuel exhaustion in `dictScan`) the
source loop never terminating on an unclosed dictionary -/
def getDictBoundsAt (data : List Nat) (start0 : Int) (skipE : Bool) : Option ParserBounds :=
  let start := if skipE then skipEmpty data start0 else start0
  if isOutside data start || !(getC data start == some 60) ||
      !(getC data (start + 1) == some 60) then none
  else
    let contentStart := findNonSpaceIndex data true (start + 2)
    if contentStart == -1 then none
    else
      match dictScan data (data.length + 2) 1 true 0 none contentStart with
      | none => none
      | some i =>
        let endIdx := (i : Int) - 1
        let contentEnd := findNonSpaceIndex data false (endIdx - 2)
        if contentEnd < contentStart then some ⟨start, endIdx, none, none⟩
        else some ⟨start, endIdx, some contentStart, some contentEnd⟩

/-- the `while (arraysOpened)` loop of `getArrayBoundsAt`: count `[` against
`]` with no literal awareness.  `some i` is the exit value of `i`; `none`
means the fuel ran out, which (with fuel past the buffer length) models the
source loop running forever, since past the end of the buffer every read is
`undefined` and the count can never drop. -/
def arrScan (data : List Nat) : Nat → Nat → Int → Option Int
  | 0, _, _ => none
  | fuel + 1, arraysOpened, i =>
    if arraysOpened == 0 then some i
    else
      let c := getC data i
      let opened2 :=
        if c == some 91 then arraysOpened + 1
        else if c == some 93 then arraysOpened - 1
        else arraysOpened
      arrScan data fuel opened2 (i + 1)

/-- `SyncDataParser.getArrayBoundsAt`: the start must hold `[`; `none` covers
both the source's `null` returns and (via `arrScan` fuel exhaustion) the
source loop never terminating on unbalanced brackets -/
def getArrayBoundsAt (data : List Nat) (start0 : Int) (skipE : Bool) : Option ParserBounds :=
  let start := if skipE then skipEmpty data start0 else start0
  if isOutside data start || !(getC data start == some 91) then none
  else
    match arrScan data (data.length + 2) 1 (start + 1) with
    | none => none
    | some i =>
      let arrayEnd := (i : Int) - 1
      if arrayEnd - start < 1 then none
      else some ⟨start, arrayEnd, none, none⟩

/-- the maximal run of bytes satisfying `p` that a JS
`while (p(value)) { ...; value = data[++i]; }` loop consumes starting at
index `i`: out-of-bounds reads are `undefined`, on which every predicate used
by the source is false, so the run is a `takeWhile` of the in-buffer suffix -/
def codeRun (p : Nat → Bool) (data : List Nat) (i : Int) : List Nat :=
  if 0 ≤ i then (data.drop i.toNat).takeWhile p else []

/-- result of the JS unary-plus coercion `+numberStr` as the source applies it
in `parseNumberAt`: either NaN or an exact rational.  The embedding identifies
the JS floats produced for the parser's digit strings with the exact rationals
those strings denote (and `-0` with `0`). -/
inductive JsNumber where
  | nan
  | num (q : ℚ)
deriving DecidableEq

/-- digit run to a natural number, most significant digit first -/
def digitsToNat (l : List Nat) : Nat :=
  l.foldl (fun acc c => acc * 10 + (c - 48)) 0

/-- Modelled from the spec: the JS runtime coercion `+numberStr` used by
`parseNumberAt` (the runtime itself is outside the repository).  Restricted
to the strings that loop can build — an optional leading `-` followed by
digits and dots — `Number()` yields the denoted value when there is at most
one dot and at least one digit, and NaN otherwise. -/
def jsNum (s : List Nat) : JsNumber :=
  let signed := s.head? == some 45
  let t := if signed then s.tail else s
  if t.all (fun c => isDigitB c || c == 46) && t.count 46 ≤ 1 &&
      t.any (fun c => isDigitB c) then
    let ip := t.takeWhile (fun c => !(c == 46))
    let fp := (t.dropWhile (fun c => !(c == 46))).drop 1
    let mag : Int := ((digitsToNat ip * 10 ^ fp.length + digitsToNat fp : Nat) : Int)
    JsNumber.num (mkRat (if signed then -mag else mag) (10 ^ fp.length))
  else JsNumber.nan

/-- `SyncDataParser.parseNumberAt`: optional leading `-` (kept) or `.`
(expanded to `0.`), then a run of digits — dots also allowed when `float` —
collected into `numberStr`; succeeds iff `numberStr` is non-empty, with the
JS-coerced numeric value -/
def parseNumberAt (data : List Nat) (start0 : Int) (float skipE : Bool) :
    Option (ParserResult JsNumber) :=
  let start := if skipE then skipEmpty data start0 else start0
  if isOutside data start || !(isRegularO (getC data start)) then none
  else
    let v0 := getC data start
    let seed : List Nat × Int :=
      if v0 == some 45 then ([45], start + 1)
      else if v0 == some 46 then ([48, 46], start + 1)
      else ([], start)
    let run := codeRun (fun c => isDigitB c || (float && c == 46)) data seed.2
    let numberStr := seed.1 ++ run
    if numberStr.isEmpty then none
    else some ⟨jsNum numberStr, start, seed.2 + (run.length : Int) - 1⟩

/-- `SyncDataParser.parseNameAt`: the start must hold `/`; the value is the
following run of regular bytes, prefixed with `/` when `includeSlash`;
succeeds iff the accumulated string is longer than one byte -/
def parseNameAt (data : List Nat) (start0 : Int) (includeSlash skipE : Bool) :
    Option (ParserResult (List Nat)) :=
  let start := if skipE then skipEmpty data start0 else start0
  if isOutside data start || !(getC data start == some 47) then none
  else
    let run := codeRun isRegularB data (start + 1)
    let result := (if includeSlash then [47] else []) ++ run
    if decide (1 < result.length) then
      some ⟨result, start, start + 1 + (run.length : Int) - 1⟩
    else none

/-!
`ResourceDict` (from the repository's resource-dict module).  The pieces it
builds on — `ObjectMapDict`, `GraphicsStateDict.parse`, `XFormStream.parse`,
`ImageStream.parse`, `FontDict.parse`, the `ParseInfo` record — are outside
the extracted sources, so they enter the embedding abstractly: `ParseInfo` is
a type parameter, each child parse is a function into `Option`, and a raw
sub-map is its list of `(name, object id)` entries (the spec: a name →
ObjectId-or-inline-dict map; a `nil` parse result means the child parse
failed, a `nil` resolver result means the reference is dangling).
-/

/-- the JS `Map.set` used for the resolved maps: replace the value in place
when the key is present, else append the new pair -/
def mapSet {α : Type} : List (String × α) → String → α → List (String × α)
  | [], k, v => [(k, v)]
  | (k0, v0) :: rest, k, v =>
    if k0 == k then (k, v) :: rest else (k0, v0) :: mapSet rest k v

/-- the per-category loop of `ResourceDict.fillMaps` over
`subMap.getObjectIds()`: resolve each object id through `parseInfoGetter`
(`continue` when it returns `nil`), parse the result, and insert the parsed
child under the prefixed key when the parse succeeded -/
def resolveIds {PI β : Type} (getter : Nat → Option PI) (childParse : PI → Option β)
    (pre : String) :
    List (String × Nat) → List (String × β) → List (String × β)
  | [], m => m
  | (name, oid) :: rest, m =>
    match getter oid with
    | none => resolveIds getter childParse pre rest m
    | some pi =>
      match childParse pi with
      | none => resolveIds getter childParse pre rest m
      | some v => resolveIds getter childParse pre rest (mapSet m (pre ++ name) v)

/-- the `ExtGState.getDictParsers()` loop of `fillMaps`: inline sub-dicts are
parsed directly and inserted when the parse succeeded -/
def resolveDicts {PI β : Type} (childParse : PI → Option β) (pre : String) :
    List (String × PI) → List (String × β) → List (String × β)
  | [], m => m
  | (name, pi) :: rest, m =>
    match childParse pi with
    | none => resolveDicts childParse pre rest m
    | some v => resolveDicts childParse pre rest (mapSet m (pre ++ name) v)

/-- the three resolved maps rebuilt by `fillMaps` -/
structure ResolvedMaps (GS XO FD : Type) where
  gsMap : List (String × GS)
  xObjectsMap : List (String × XO)
  fontsMap : List (String × FD)

/-- `ResourceDict.fillMaps`: clear the three resolved maps, then resolve
`ExtGState` (object ids, then inline dicts), `XObject` (a child whose byte
range holds the closed keyword `/Form` parses as a form stream, otherwise as
an image stream — the discrimination runs on the child's own parser and is
abstracted as `isForm`), and `Font` -/
def fillMaps {PI GS XF IM FD : Type}
    (extIds : List (String × Nat)) (extDicts : List (String × PI))
    (xobjIds fontIds : List (String × Nat))
    (getter : Nat → Option PI)
    (gsParse : PI → Option GS) (isForm : PI → Bool)
    (xfParse : PI → Option XF) (imParse : PI → Option IM)
    (fdParse : PI → Option FD) : ResolvedMaps GS (XF ⊕ IM) FD :=
  let gs1 := resolveIds getter gsParse "/ExtGState" extIds []
  let gs2 := resolveDicts gsParse "/ExtGState" extDicts gs1
  let xo := resolveIds getter
    (fun pi => if isForm pi then (xfParse pi).map Sum.inl else (imParse pi).map Sum.inr)
    "/XObject" xobjIds []
  let fm := resolveIds getter fdParse "/Font" fontIds []
  ⟨gs2, xo, fm⟩

/-- the message of the error `ResourceDict.parse` throws on a missing
`parseInfo` -/
def noParseInfoMsg : String := "Parsing information not passed"

/-- `ResourceDict.parse`: a missing `parseInfo` throws before the
`try`/`catch` (an uncaught error, modelled as `Except.error`); any failure
raised by the body (`parseProps` and the proxy installation, abstracted as
`body` since their callees are outside the extracted sources) is caught,
logged and turned into the JS `null` result -/
def rdParse {PI RD : Type} (boundsOf : PI → Int × Int) (body : PI → Except String RD)
    (parseInfo : Option PI) : Except String (Option (ParserResult RD)) :=
  match parseInfo with
  | none => Except.error noParseInfoMsg
  | some p =>
    match body p with
    | Except.error _ => Except.ok none
    | Except.ok v => Except.ok (some ⟨v, (boundsOf p).1, (boundsOf p).2⟩)

/-!
Theorems.  Each claim of the specification is settled below; helper lemmas
about the scanning loops come first.
-/

/-- claim C1 (counterexample): on the spec's own scenario input
`<< /A (>>) /B <</X 1>> >>` (25 bytes, indices 0..24) the outer dictionary
bounds returned by `getDictBoundsAt` are not `{start 0, end 23}`: the closing
second `>` sits at index 24. -/
theorem claim1_counterexample :
    (getDictBoundsAt
        [60,60,32,47,65,32,40,62,62,41,32,47,66,32,60,60,47,88,32,49,62,62,32,62,62]
        0 true).map (fun b => (b.start, b.endIdx)) ≠ some ((0 : Int), (23 : Int)) := by
  decide

/-- claim C1 (amended): on the input `<< /A (>>) /B <</X 1>> >>` the `>>`
inside the string literal does not close the outer dictionary — the scan
ignores `<` and `>` bytes inside literals — and the outer bounds are
`{start 0, end 24}` with content bounds `{3, 21}`. -/
theorem claim1_dict_bounds :
    getDictBoundsAt
        [60,60,32,47,65,32,40,62,62,41,32,47,66,32,60,60,47,88,32,49,62,62,32,62,62]
        0 true = some ⟨0, 24, some 3, some 21⟩ := by
  decide

/-- claim C2 (counterexample): `parseNumberAt` with `float = true` does not
reject the input `"."`: the leading dot is expanded to `"0."`, which is a
non-empty digit string, so the parse returns a result of value 0 instead of
the `nil` the claim demands. -/
theorem claim2_counterexample :
    parseNumberAt [46] 0 true true = some ⟨JsNumber.num (mkRat 0 1), 0, 0⟩ := by
  decide

/-- claim C2 (amended): with `float = true` the number parser accepts
`"0"`, `"-0"`, `"0."`, `".0"`, `"-.5"`, `"123.456"` with the denoted numeric
values, and of the claimed rejection set it rejects only `"abc"`: `"."`
parses to the value 0 and `"-"`, `"-."` parse to NaN-valued results. -/
theorem claim2_parseNumberAt_cases :
    parseNumberAt [48] 0 true true = some ⟨JsNumber.num (mkRat 0 1), 0, 0⟩ ∧
    parseNumberAt [45,48] 0 true true = some ⟨JsNumber.num (mkRat 0 1), 0, 1⟩ ∧
    parseNumberAt [48,46] 0 true true = some ⟨JsNumber.num (mkRat 0 1), 0, 1⟩ ∧
    parseNumberAt [46,48] 0 true true = some ⟨JsNumber.num (mkRat 0 1), 0, 1⟩ ∧
    parseNumberAt [45,46,53] 0 true true = some ⟨JsNumber.num (mkRat (-1) 2), 0, 2⟩ ∧
    parseNumberAt [49,50,51,46,52,53,54] 0 true true
      = some ⟨JsNumber.num (mkRat 123456 1000), 0, 6⟩ ∧
    parseNumberAt [46] 0 true true = some ⟨JsNumber.num (mkRat 0 1), 0, 0⟩ ∧
    parseNumberAt [45] 0 true true = some ⟨JsNumber.nan, 0, 0⟩ ∧
    parseNumberAt [45,46] 0 true true = some ⟨JsNumber.nan, 0, 1⟩ ∧
    parseNumberAt [97,98,99] 0 true true = none := by
  decide

/-- claim C5 (counterexample): `skipEmpty` is not idempotent.  On the buffer
`"%a\n%b\nX"` it skips only the first comment, landing on the `%` of the
second one at index 3; a second application then lands on the `X` at
index 6. -/
theorem claim5_counterexample :
    skipEmpty [37,97,10,37,98,10,88] (skipEmpty [37,97,10,37,98,10,88] 0)
      ≠ skipEmpty [37,97,10,37,98,10,88] 0 := by
  decide

/-- claim C6 (counterexample): on the six-byte buffer holding exactly
`12 0 R` there is no delimiter after the digits, `findDelimiterIndex`
returns -1, and `getValueTypeAt` classifies the value as `Number`, not as
the `Reference` the claim states. -/
theorem claim6_counterexample :
    getValueTypeAt [49,50,32,48,32,82] 0 true = some ValueType.NUMBER := by
  decide

/-- claim C6 (amended): the digit branch classifies `Reference` only when a
delimiter follows the token: `12 0 R]` is a `Reference` (digit → delimiter →
backward `R` with a non-regular follower), while both `5 0` and the
delimiter-less buffer `12 0 R` are `Number`. -/
theorem claim6_getValueTypeAt_cases :
    getValueTypeAt [49,50,32,48,32,82,93] 0 true = some ValueType.REF ∧
    getValueTypeAt [53,32,48] 0 true = some ValueType.NUMBER ∧
    getValueTypeAt [49,50,32,48,32,82] 0 true = some ValueType.NUMBER := by
  decide

/-- claim C7 (counterexample): with `includeSlash = false` a name whose body
is a single regular byte fails to parse: on `"/A"` the byte at the start is
`/` and the body `A` is non-empty, yet `parseNameAt` returns `nil`, because
its success test `result.length > 1` counts the omitted slash. -/
theorem claim7_counterexample :
    getC [47,65] (skipEmpty [47,65] 0) = some 47 ∧
    (codeRun isRegularB [47,65] (skipEmpty [47,65] 0 + 1)).length = 1 ∧
    parseNameAt [47,65] 0 false true = none := by
  decide

/-- helper: if the buffer holds no `]` byte at all, the array-bounds loop
keeps a positive open count forever and never terminates, whatever the
fuel -/
theorem arrScan_no_rbracket (data : List Nat)
    (hno : ∀ j : Int, ¬ getC data j = some 93) :
    ∀ fuel arraysOpened i, arraysOpened ≠ 0 → arrScan data fuel arraysOpened i = none := by
  intro fuel
  induction fuel with
  | zero => intro arraysOpened i _; rfl
  | succ n ih =>
    intro arraysOpened i hop
    have h0 : (arraysOpened == 0) = false := by simp [hop]
    have h93 : (getC data i == some 93) = false := by
      simp only [beq_eq_false_iff_ne, ne_eq]
      exact hno i
    by_cases h91 : (getC data i == some 91) = true
    · simp only [arrScan, h0, h91, h93, Bool.false_eq_true, if_false, if_true]
      exact ih (arraysOpened + 1) (i + 1) (Nat.succ_ne_zero _)
    · simp only [arrScan, h0, h93, Bool.false_eq_true, if_false, eq_self_iff_true]
      rw [if_neg h91]
      exact ih arraysOpened (i + 1) hop

/-- claim C3: on the unbalanced buffer `"[1 2"` starting at the `[`, the
`while (arraysOpened)` loop of `getArrayBoundsAt` never terminates — for
every fuel bound the loop has not returned — so the method does not return
`nil` (or anything else); the source as written loops forever instead of
failing. -/
theorem claim3_array_scan_diverges :
    ∀ fuel, arrScan [91, 49, 32, 50] fuel 1 1 = none := by
  intro fuel
  refine arrScan_no_rbracket _ ?_ fuel 1 1 (by decide)
  intro j hj
  unfold getC at hj
  split at hj
  · have hm := List.get?_mem hj
    simp at hm
  · exact Option.noConfusion hj

/-- helper: a forward `findSubarrayIndex` scan with the closed-only check
never reports a match whose following byte is regular -/
theorem fsiF_closed (data sub : List Nat) :
    ∀ n i b, fsiF data sub false n i = some b →
      isRegularO (getC data (b.endIdx + 1)) = false := by
  intro n
  induction n with
  | zero => intro i b h; exact Option.noConfusion h
  | succ n ih =>
    intro i b h
    by_cases hc : (matchF data sub i &&
        (false || !(isRegularO (getC data (i + (sub.length : Int)))))) = true
    · rw [fsiF, if_pos hc] at h
      injection h with h2
      subst h2
      simp only [Bool.and_eq_true, Bool.false_or, Bool.not_eq_true'] at hc
      have harith : i + (sub.length : Int) - 1 + 1 = i + (sub.length : Int) := by ring
      simpa [harith] using hc.2
    · rw [fsiF, if_neg hc] at h
      exact ih (i + 1) b h

/-- helper: a backward `findSubarrayIndex` scan with the closed-only check
never reports a match whose preceding byte (the one just past the match in
the scan direction) is regular -/
theorem fsiB_closed (data sub : List Nat) :
    ∀ n i b, fsiB data sub false n i = some b →
      isRegularO (getC data (b.start - 1)) = false := by
  intro n
  induction n with
  | zero => intro i b h; exact Option.noConfusion h
  | succ n ih =>
    intro i b h
    by_cases hc : (matchB data sub.reverse i &&
        (false || !(isRegularO (getC data (i - (sub.length : Int)))))) = true
    · rw [fsiB, if_pos hc] at h
      injection h with h2
      subst h2
      simp only [Bool.and_eq_true, Bool.false_or, Bool.not_eq_true'] at hc
      have harith : i - (sub.length : Int) + 1 - 1 = i - (sub.length : Int) := by ring
      simpa [harith] using hc.2
    · rw [fsiB, if_neg hc] at h
      exact ih (i - 1) b h

/-- claim C4: for every needle, search range and scan direction,
`findSubarrayIndex` with `closedOnly = true` never returns a match whose
following byte (in the scan direction) is regular: that byte is whitespace,
a delimiter, or absent. -/
theorem claim4_closed_only (data sub : List Nat) (dir : Bool) (miO maO : Option Int)
    (b : ParserBounds)
    (h : findSubarrayIndex data sub ⟨dir, miO, maO, true⟩ = some b) :
    isRegularO (getC data (if dir then b.endIdx + 1 else b.start - 1)) = false := by
  unfold findSubarrayIndex at h
  by_cases hemp : sub.isEmpty
  · rw [if_pos hemp] at h
    exact Option.noConfusion h
  · rw [if_neg hemp] at h
    simp only [Bool.not_true] at h
    cases dir with
    | true =>
      simp only [if_pos rfl, if_true] at h
      simpa using fsiF_closed data sub _ _ b h
    | false =>
      simp only [Bool.false_eq_true, if_false] at h
      simpa using fsiB_closed data sub _ _ b h

/-- claim C4 witness: on the buffer `"A "` searching for `"A"` with
`closedOnly` succeeds at index 0 and the follower byte (a space) is indeed
not regular. -/
theorem claim4_witness :
    findSubarrayIndex [65, 32] [65] ⟨true, none, none, true⟩ = some ⟨0, 0, none, none⟩ ∧
    isRegularO (getC [65, 32] 1) = false :=
  ⟨by decide, claim4_closed_only [65, 32] [65] true none none ⟨0, 0, none, none⟩ (by decide)⟩

/-- helper: entries whose object id the resolver cannot supply contribute
nothing to a resolved map — filtering them out first changes nothing -/
theorem resolveIds_filter {PI β : Type} (getter : Nat → Option PI)
    (childParse : PI → Option β) (pre : String) :
    ∀ (entries : List (String × Nat)) (m : List (String × β)),
      resolveIds getter childParse pre
        (entries.filter fun e => (getter e.2).isSome) m =
      resolveIds getter childParse pre entries m := by
  intro entries
  induction entries with
  | nil => intro m; rfl
  | cons e rest ih =>
    intro m
    obtain ⟨name, oid⟩ := e
    cases hget : getter oid with
    | none =>
      rw [List.filter_cons_of_neg (by simp [hget])]
      rw [ih m]
      conv_rhs => rw [resolveIds]
      simp only [hget]
    | some pi =>
      rw [List.filter_cons_of_pos (by simp [hget])]
      simp only [resolveIds, hget]
      cases hcp : childParse pi with
      | none => simp only [hcp]; exact ih m
      | some v => simp only [hcp]; exact ih _

/-- claim C8: dangling references degrade locally.  For every set of raw
`ExtGState` / `XObject` / `Font` entries, resolver, and child parse
functions, removing up front exactly the entries whose object id the
resolver maps to `nil` leaves `fillMaps` unchanged: each dangling entry is
dropped silently from its resolved map, every other entry is resolved and
inserted exactly as before, and the computation is total, so the parse as a
whole never fails. -/
theorem claim8_dangling_dropped {PI GS XF IM FD : Type}
    (extIds : List (String × Nat)) (extDicts : List (String × PI))
    (xobjIds fontIds : List (String × Nat))
    (getter : Nat → Option PI)
    (gsParse : PI → Option GS) (isForm : PI → Bool)
    (xfParse : PI → Option XF) (imParse : PI → Option IM)
    (fdParse : PI → Option FD) :
    fillMaps (extIds.filter fun e => (getter e.2).isSome) extDicts
        (xobjIds.filter fun e => (getter e.2).isSome)
        (fontIds.filter fun e => (getter e.2).isSome)
        getter gsParse isForm xfParse imParse fdParse =
      fillMaps extIds extDicts xobjIds fontIds
        getter gsParse isForm xfParse imParse fdParse := by
  unfold fillMaps
  rw [resolveIds_filter, resolveIds_filter, resolveIds_filter]

/-- claim C9: `getValueTypeAt` returns the JS `null` — a value outside the
documented `ValueType` set, not `Unknown` — whenever the whitespace-skipped
start position lies outside the buffer, including when `skipEmpty` exhausts
the buffer and yields -1. -/
theorem claim9_getValueTypeAt_outside (data : List Nat) (start0 : Int) (skipE : Bool)
    (h : isOutside data (if skipE then skipEmpty data start0 else start0) = true) :
    getValueTypeAt data start0 skipE = none := by
  unfold getValueTypeAt
  simp only [h, if_true]

/-- claim C9 witness: on the all-whitespace buffer `" "`, `skipEmpty`
exhausts the buffer (yielding -1, which is outside), and `getValueTypeAt`
returns `null`. -/
theorem claim9_witness :
    isOutside [32] (if true then skipEmpty [32] 0 else 0) = true ∧
    getValueTypeAt [32] 0 true = none :=
  ⟨by decide, claim9_getValueTypeAt_outside [32] 0 true (by decide)⟩

/-- claim C10: `ResourceDict.parse` returns the JS `null` for every failure
the parsing body raises on a supplied `parseInfo` (the error is logged and
swallowed), but a missing `parseInfo` throws the uncaught error
`"Parsing information not passed"` before the `try` block, instead of
returning `null`. -/
theorem claim10_parse_nil_vs_throw {PI RD : Type} (boundsOf : PI → Int × Int)
    (body : PI → Except String RD) :
    rdParse boundsOf body none = Except.error noParseInfoMsg ∧
    ∀ (p : PI) (e : String), body p = Except.error e →
      rdParse boundsOf body (some p) = Except.ok none := by
  constructor
  · rfl
  · intro p e he
    simp only [rdParse, he]

/-- claim C10 witness: with a body that always fails, a supplied
`parseInfo` yields the `null` result while a missing one yields the thrown
error. -/
theorem claim10_witness :
    rdParse (fun _ : Unit => ((0 : Int), (0 : Int)))
        (fun _ => (Except.error "boom" : Except String Unit)) none
      = Except.error noParseInfoMsg ∧
    rdParse (fun _ : Unit => ((0 : Int), (0 : Int)))
        (fun _ => (Except.error "boom" : Except String Unit)) (some ())
      = Except.ok none :=
  ⟨(claim10_parse_nil_vs_throw (fun _ : Unit => ((0 : Int), (0 : Int)))
      (fun _ => (Except.error "boom" : Except String Unit))).1,
   (claim10_parse_nil_vs_throw (fun _ : Unit => ((0 : Int), (0 : Int)))
      (fun _ => (Except.error "boom" : Except String Unit))).2 () "boom" rfl⟩

/-- helper: a forward scan that does not report -1 stopped at a position
satisfying its predicate, at or after its start, and within its iteration
budget -/
theorem scanF_found (p : Option Nat → Bool) (data : List Nat) :
    ∀ n i, scanF p data n i ≠ -1 →
      p (getC data (scanF p data n i)) = true ∧
      i ≤ scanF p data n i ∧ scanF p data n i < i + n := by
  intro n
  induction n with
  | zero => intro i h; exact absurd rfl h
  | succ n ih =>
    intro i h
    by_cases hp : p (getC data i) = true
    · rw [scanF, if_pos hp] at h ⊢
      exact ⟨hp, le_refl i, by omega⟩
    · rw [scanF, if_neg hp] at h ⊢
      obtain ⟨h1, h2, h3⟩ := ih (i + 1) h
      exact ⟨h1, by omega, by omega⟩

/-- helper: a successful forward `findNonSpaceIndex` lands on a byte that is
not a space and does not pass the maximal index -/
theorem findNonSpaceIndex_found (data : List Nat) (start : Int)
    (h : findNonSpaceIndex data true start ≠ -1) :
    isNotSpaceO (getC data (findNonSpaceIndex data true start)) = true ∧
    findNonSpaceIndex data true start ≤ maxIndex data := by
  rw [findNonSpaceIndex, if_pos rfl] at h ⊢
  obtain ⟨h1, h2, h3⟩ := scanF_found isNotSpaceO data _ start h
  exact ⟨h1, by omega⟩

/-- helper: a forward `findNonSpaceIndex` started on an in-range non-space
position returns that position unchanged -/
theorem findNonSpaceIndex_fix (data : List Nat) (j : Int)
    (hns : isNotSpaceO (getC data j) = true) (hle : j ≤ maxIndex data) :
    findNonSpaceIndex data true j = j := by
  rw [findNonSpaceIndex, if_pos rfl]
  have hk : (maxIndex data + 1 - j).toNat = (maxIndex data - j).toNat + 1 := by omega
  rw [hk, scanF, if_pos hns]

/-- helper: `skipEmpty` started at -1 reads the undefined byte before the
buffer, which counts as non-space and is not a `%`, and returns -1 -/
theorem skipEmpty_at_neg_one (data : List Nat) : skipEmpty data (-1) = -1 := by
  have hfns : findNonSpaceIndex data true (-1) = -1 := by
    rw [findNonSpaceIndex, if_pos rfl]
    have hk : (maxIndex data + 1 - (-1)).toNat = data.length + 1 := by
      unfold maxIndex; omega
    rw [hk, scanF]
    have hg : getC data (-1) = none := by rfl
    rw [hg]
    rfl
  simp [skipEmpty, hfns]

/-- claim C5 (amended): `skipEmpty` is idempotent at every index whose image
is -1 or lands on a byte other than `%`; the only failures of idempotence
are results that point at the `%` of a second comment, which the source does
not skip (it handles a single comment without re-checking). -/
theorem claim5_skipEmpty_idem (data : List Nat) (i : Int)
    (h : skipEmpty data i = -1 ∨ ¬ getC data (skipEmpty data i) = some 37) :
    skipEmpty data (skipEmpty data i) = skipEmpty data i := by
  by_cases h1 : skipEmpty data i = -1
  · rw [h1]
    exact skipEmpty_at_neg_one data
  · have hp : ¬ getC data (skipEmpty data i) = some 37 := h.resolve_left h1
    have hrepr : ∃ s, skipEmpty data i = findNonSpaceIndex data true s := by
      by_cases hn1 : findNonSpaceIndex data true i = -1
      · exact ⟨i, by simp [skipEmpty, hn1]⟩
      · by_cases hpc : getC data (findNonSpaceIndex data true i) = some 37
        · by_cases hac : findNewLineIndex data true (findNonSpaceIndex data true i + 1) = -1
          · refine ⟨maxIndex data + 1, ?_⟩
            have hend : findNonSpaceIndex data true (maxIndex data + 1) = -1 := by
              rw [findNonSpaceIndex, if_pos rfl]
              have hk : (maxIndex data + 1 - (maxIndex data + 1)).toNat = 0 := by omega
              rw [hk]
              rfl
            simp [skipEmpty, hn1, hpc, hac, hend]
          · exact ⟨findNewLineIndex data true (findNonSpaceIndex data true i + 1),
              by simp [skipEmpty, hn1, hpc, hac]⟩
        · exact ⟨i, by simp [skipEmpty, hn1, hpc]⟩
    obtain ⟨s, hs⟩ := hrepr
    rw [hs] at h1 hp ⊢
    obtain ⟨hns, hle⟩ := findNonSpaceIndex_found data s h1
    have hfix := findNonSpaceIndex_fix data _ hns hle
    simp [skipEmpty, hfix, h1, hp]

/-- claim C5 witness: on the one-byte buffer `"X"` the skipped index 0 holds
a byte other than `%`, and a second `skipEmpty` is a no-op. -/
theorem claim5_witness :
    (skipEmpty [88] 0 = -1 ∨ ¬ getC [88] (skipEmpty [88] 0) = some 37) ∧
    skipEmpty [88] (skipEmpty [88] 0) = skipEmpty [88] 0 :=
  ⟨by decide, claim5_skipEmpty_idem [88] 0 (by decide)⟩

/-- claim C7 (amended): `parseNameAt` succeeds exactly when the byte at the
(whitespace-skipped) start position is `/` and the following run of regular
bytes (the body) is long enough for the success test `result.length > 1`:
non-empty when `includeSlash` is true, at least two bytes when it is false
(a one-byte body then fails).  On success the value is the body, prefixed
with `/` iff `includeSlash`, and the reported end index is the last body
byte. -/
theorem claim7_parseNameAt_spec (data : List Nat) (start0 : Int)
    (includeSlash skipE : Bool) :
    parseNameAt data start0 includeSlash skipE =
      (let s := if skipE then skipEmpty data start0 else start0
       let body := codeRun isRegularB data (s + 1)
       if isOutside data s = false ∧ getC data s = some 47 ∧
           (if includeSlash then 1 else 2) ≤ body.length then
         some ⟨(if includeSlash then [47] else []) ++ body, s, s + (body.length : Int)⟩
       else none) := by
  unfold parseNameAt
  set s := if skipE then skipEmpty data start0 else start0 with hs
  set body := codeRun isRegularB data (s + 1) with hbody
  by_cases h1 : isOutside data s
  · simp [h1]
  · by_cases h2 : getC data s = some 47
    · have harith : s + 1 + (body.length : Int) - 1 = s + (body.length : Int) := by ring
      cases includeSlash with
      | true =>
        simp only [h1, h2, Bool.false_or, beq_self_eq_true, Bool.not_true, Bool.or_false,
          Bool.false_eq_true, if_false, if_true, List.cons_append, List.nil_append,
          List.length_cons, harith, eq_self_iff_true, true_and, not_false_eq_true]
        split_ifs with hl1 hl2 hl2 <;>
          simp only [decide_eq_true_eq, hbody] at * <;>
          first | rfl | omega
      | false =>
        simp only [h1, h2, Bool.false_or, beq_self_eq_true, Bool.not_true, Bool.or_false,
          Bool.false_eq_true, if_false, if_true, List.nil_append,
          harith, eq_self_iff_true, true_and, not_false_eq_true]
        split_ifs with hl1 hl2 hl2 <;>
          simp only [decide_eq_true_eq, hbody] at * <;>
          first | rfl | omega
    · simp [h1, h2]

end TsPdf
